import Mathlib

/-!
Verification of the run-orchestration and cancellation layer of the
smart-cut-quote nesting engine, shallowly embedded in Lean 4.

Sources embedded (Rust):
  * `src-tauri/src/nesting_engine/terminator.rs` (NativeTerminator)
  * `src-tauri/src/nesting_engine/nesting.rs` (run_nesting, NestingConfig)
  * `src-tauri/src/nesting_engine/mod.rs` (run_nesting_engine, expand_svg_viewbox)
  * `src-tauri/src/nesting_engine/serializer.rs` (NestingOutput::from_solution)
  * `refactor_sparrow_rust/src/bin/cli.rs` (main)

Modelling conventions:
  * time is measured in abstract integer units (milliseconds or seconds as
    stated locally); `Instant` becomes a `Nat` timestamp, `Duration` a `Nat`;
  * real-valued quantities (areas, ratios, coordinates) computed by the
    source in `f32`/`f64` are modelled by exact rationals `ℚ`;
  * locks always succeed (the source discards poisoned-lock errors and the
    embedding is sequential), so `RwLock<Option<Instant>>` becomes
    `Option Nat`;
  * printing/logging side effects do not influence returned values and are
    modelled, where a claim needs them, as explicit flags or events.
-/

namespace NestingEngine

/-! ## Terminator (terminator.rs)

`NativeTerminator` holds an `Arc<AtomicBool>` stop flag and an
`Arc<RwLock<Option<Instant>>>` deadline.  The embedding is the state of one
terminator; `Instant::now()` is passed in explicitly as a `Nat` timestamp. -/

structure NativeTerminator where
  stop : Bool
  deadline : Option Nat
  deriving Repr, DecidableEq

namespace NativeTerminator

/-- `NativeTerminator::new()`: stop flag false, no deadline. -/
def new : NativeTerminator := { stop := false, deadline := none }

/-- `terminate(&self)`: store true into the stop flag. -/
def terminate (t : NativeTerminator) : NativeTerminator := { t with stop := true }

/-- `is_terminated(&self)`, with `now` the value of `Instant::now()`:
returns true when the stop flag is set; otherwise, when a deadline is set,
returns `Instant::now() > timeout`; otherwise false. -/
def is_terminated (t : NativeTerminator) (now : Nat) : Bool :=
  if t.stop then
    true
  else
    match t.deadline with
    | some timeout => now > timeout
    | none => false

/-- `kill(&self)` from the `Terminator` trait impl: same branch structure as
`is_terminated`; the `TIMEOUT_PRINTED` counter and `println!` calls affect
only logging, not the returned value. -/
def kill (t : NativeTerminator) (now : Nat) : Bool :=
  if t.stop then
    true
  else
    match t.deadline with
    | some timeout => if now > timeout then true else false
    | none => false

/-- `reset(&self)`: clear the stop flag and the deadline. -/
def reset (_t : NativeTerminator) : NativeTerminator := { stop := false, deadline := none }

/-- `new_timeout(&mut self, duration)`: if a deadline is already set the call
is ignored; otherwise the deadline becomes `Instant::now() + duration`. -/
def new_timeout (t : NativeTerminator) (now duration : Nat) : NativeTerminator :=
  if t.deadline.isSome then t
  else { t with deadline := some (now + duration) }

/-- `timeout_at(&self)`: the currently armed deadline, if any. -/
def timeout_at (t : NativeTerminator) : Option Nat := t.deadline

end NativeTerminator

/-! ## Budget planner and configuration (nesting.rs, mod.rs)

`run_nesting` derives the two phase durations from `config.time_limit`:
`Duration::from_secs(t).mul_f32(DEFAULT_EXPLORE_TIME_RATIO)` and likewise
for compression, substituting a 600 s default (with a `warn!` log event)
when no limit is given.  The ratio constants live in the external `sparrow`
crate; the spec constrains them by `r_explore + r_compress ≤ 1` and they are
passed here as parameters.  Durations are modelled as exact rationals. -/

/-- Budget planning branch of `run_nesting` (nesting.rs lines 105–121).
Returns the (exploration, compression) durations together with a flag that
is true exactly when the 600 s default was substituted (the `warn!`
"no time limit specified, using default 600s" log event); substitution is
reported via that log event and never as an error. -/
def planBudget (time_limit : Option Nat) (rExplore rCompress : ℚ) :
    (ℚ × ℚ) × Bool :=
  match time_limit with
  | some t => (((t : ℚ) * rExplore, (t : ℚ) * rCompress), false)
  | none => (((600 : ℚ) * rExplore, (600 : ℚ) * rCompress), true)

/-- `NestingConfig` (nesting.rs): time limit in seconds, seed, early
termination flag, worker count. -/
structure NestingConfig where
  time_limit : Option Nat
  seed : Option Nat
  use_early_termination : Bool
  n_workers : Nat
  deriving Repr, DecidableEq

/-- `NestingConfig::default()`: 300 s limit, no seed, no early termination,
one worker. -/
def NestingConfig.default : NestingConfig :=
  { time_limit := some 300, seed := none, use_early_termination := false, n_workers := 1 }

/-- `NestingInput` (mod.rs): frontend input with optional fields. -/
structure NestingInput where
  time_limit : Option Nat
  seed : Option Nat
  use_early_termination : Option Bool
  n_workers : Option Nat
  deriving Repr, DecidableEq

/-- Configuration built by `run_nesting_engine` (mod.rs lines 74–80):
`time_limit: input.time_limit.or(Some(300))`, defaults for the rest. -/
def NestingInput.toConfig (input : NestingInput) : NestingConfig :=
  { time_limit := input.time_limit.or (some 300)
    seed := input.seed
    use_early_termination := input.use_early_termination.getD false
    n_workers := input.n_workers.getD 1 }

/-! ## Orchestration traces (mod.rs, nesting.rs, cli.rs)

For the arming-discipline claim the relevant observable behaviour of each
entry point is the sequence of terminator-arming writes and optimizer
invocations on the successful path.  An `armDeadline t` event records a
write of the deadline by `new_timeout` on the freshly created terminator
(whose deadline is `none`, so the write is never the ignored branch). -/

inductive OrchestrationEvent where
  | armDeadline (secs : Nat)
  | invokeOptimizer
  deriving Repr, DecidableEq

/-- True exactly on deadline-arming events. -/
def OrchestrationEvent.isArm : OrchestrationEvent → Bool
  | .armDeadline _ => true
  | .invokeOptimizer => false

/-- `run_nesting` (nesting.rs, and identically refactor_sparrow_rust
core/nesting.rs): parses, configures, imports, then calls `optimize` once;
it never calls `new_timeout` on the terminator. -/
def runNestingEvents (_config : NestingConfig) : List OrchestrationEvent :=
  [.invokeOptimizer]

/-- `run_nesting_engine` (mod.rs lines 61–120): builds the config, creates a
fresh terminator, and `if let Some(time_limit) = config.time_limit` calls
`terminator.new_timeout(Duration::from_secs(time_limit))` once, then calls
`run_nesting`. -/
def runNestingEngineEvents (input : NestingInput) : List OrchestrationEvent :=
  let config := input.toConfig
  (match config.time_limit with
   | some t => [OrchestrationEvent.armDeadline t]
   | none => []) ++ runNestingEvents config

/-- `main` of the CLI binary (refactor_sparrow_rust/src/bin/cli.rs lines
101–107): builds a config with `time_limit: Some(args.timeout)`, creates a
fresh `NativeTerminator`, and calls `run_nesting` directly; it never calls
`new_timeout`. -/
def cliMainEvents (timeout : Nat) (seed : Option Nat)
    (early_termination : Bool) (workers : Nat) : List OrchestrationEvent :=
  runNestingEvents
    { time_limit := some timeout, seed := seed,
      use_early_termination := early_termination, n_workers := workers }

/-! ## Result reducer (serializer.rs)

The raw solution and instance types are owned by the external `jagua_rs`
crate (`SPSolution`, `SPInstance`); only the fields read by
`NestingOutput::from_solution` are embedded, following the spec's §3
description of `RawSolution` and `Instance`:
an instance is a collection of (item definition, requested quantity) pairs
plus a fixed strip height, and a solution is a collection of placed-item
records (item identifier, rotation, translation) plus a derived strip
width.  Areas and coordinates (`f32`/`f64` in the source) are exact
rationals here. -/

/-- An item as read by the reducer: its id and `shape_orig.area()`. -/
structure SPItem where
  id : Nat
  area : ℚ
  deriving Repr, DecidableEq

/-- Instance fields read by the reducer: `items: Vec<(Item, usize)>` and
`base_strip.fixed_height`. -/
structure SPInstance where
  items : List (SPItem × Nat)
  fixed_height : ℚ
  deriving Repr, DecidableEq

/-- Modelled from the spec: `SPInstance::total_item_qty()` lives in the
external `jagua_rs` crate; per §4.4, `items_requested` is the sum of
requested quantities across all instance items. -/
def SPInstance.total_item_qty (inst : SPInstance) : Nat :=
  (inst.items.map (fun iq => iq.2)).sum

/-- A placed-item record of the raw solution: `item_id`, the rotation
returned by `d_transf.rotation()` (radians), and the translation pair. -/
structure SPPlacedItem where
  item_id : Nat
  rotation : ℚ
  translation : ℚ × ℚ
  deriving Repr, DecidableEq

/-- Solution fields read by the reducer: the placed-item records of
`layout_snapshot.placed_items` (in iteration order) and `strip_width()`. -/
structure SPSolution where
  placed_items : List SPPlacedItem
  strip_width : ℚ
  deriving Repr, DecidableEq

/-- `f32::to_degrees`: multiplication by 180/π, with π a fixed rational
approximation since the source computes in floating point (no claim
depends on the numeric value). -/
def radiansToDegrees (r : ℚ) : ℚ := r * (180 / 3.14159265358979323846)

/-- `PlacedItem` of serializer.rs (the output record). -/
structure PlacedItem where
  item_id : Nat
  rotation_degrees : ℚ
  position_x : ℚ
  position_y : ℚ
  deriving Repr, DecidableEq

/-- `NestingOutput` of serializer.rs. -/
structure NestingOutput where
  instance_name : String
  strip_width : ℚ
  strip_height : ℚ
  total_items_placed : Nat
  layouts : List PlacedItem
  utilization : ℚ
  computation_time_secs : ℚ
  status : Option String
  items_requested : Option Nat
  unplaced_item_ids : List Nat
  svg_string : Option String
  deriving Repr, DecidableEq

/-- `NestingOutput::from_solution` (serializer.rs lines 59–152; the
refactor_sparrow_rust copy is identical except for the absent
`svg_string`).  The `HashMap` of per-id placed counts built by iterating
`layouts` is embedded as the multiset count over the ids of `layouts`. -/
def NestingOutput.from_solution (solution : SPSolution) (inst : SPInstance)
    (instance_name : String) (computation_time : ℚ) : NestingOutput :=
  let strip_width := solution.strip_width
  let strip_height := inst.fixed_height
  let layouts := solution.placed_items.map (fun p =>
    { item_id := p.item_id
      rotation_degrees := radiansToDegrees p.rotation
      position_x := p.translation.1
      position_y := p.translation.2 : PlacedItem })
  let total_items_placed := layouts.length
  let total_item_area := (inst.items.map (fun iq => iq.1.area * (iq.2 : ℚ))).sum
  let strip_area := strip_width * strip_height
  let utilization := if strip_area > 0 then total_item_area / strip_area else 0
  let total_requested := inst.total_item_qty
  let status :=
    if total_items_placed < total_requested then some "partial"
    else some "complete"
  let placed_count := fun id => (layouts.map (fun p => p.item_id)).count id
  let unplaced_item_ids := inst.items.flatMap (fun iq =>
    List.replicate (iq.2 - placed_count iq.1.id) iq.1.id)
  { instance_name := instance_name
    strip_width := strip_width
    strip_height := strip_height
    total_items_placed := total_items_placed
    layouts := layouts
    utilization := utilization
    computation_time_secs := computation_time
    status := status
    items_requested := some total_requested
    unplaced_item_ids := unplaced_item_ids
    svg_string := none }

/-- Total requested item area of an instance (the reducer's
`total_item_area`). -/
def totalItemArea (inst : SPInstance) : ℚ :=
  (inst.items.map (fun iq => iq.1.area * (iq.2 : ℚ))).sum

/-! Concrete inputs used by counterexamples and witnesses. -/

/-- Instance with one item (id 0, area 1), requested quantity 1. -/
def oneItemInst : SPInstance :=
  { items := [({ id := 0, area := 1 }, 1)], fixed_height := 1 }

/-- A placed-item record for item 0 at the origin with no rotation. -/
def placedZero : SPPlacedItem :=
  { item_id := 0, rotation := 0, translation := (0, 0) }

/-- A raw solution that places item 0 twice — one more copy than
requested by `oneItemInst`. -/
def overplacedSol : SPSolution :=
  { placed_items := [placedZero, placedZero], strip_width := 1 }

/-- Scenario-B style instance: one item (id 0, area 10), quantity 4,
strip height 5. -/
def scenarioInst : SPInstance :=
  { items := [({ id := 0, area := 10 }, 4)], fixed_height := 5 }

/-- A raw solution placing only 3 of the 4 requested copies, at width 10. -/
def scenarioPartialSol : SPSolution :=
  { placed_items := [placedZero, placedZero, placedZero], strip_width := 10 }

/-- Instance with one item of area 10, quantity 1. -/
def bigItemInst : SPInstance :=
  { items := [({ id := 0, area := 10 }, 1)], fixed_height := 1 }

/-- A raw solution with strip width 1 (strip area 1 < total item area 10). -/
def narrowSol : SPSolution :=
  { placed_items := [placedZero], strip_width := 1 }

/-! ## Parse-failure handling of run_nesting (nesting.rs lines 84–91)

On a serde deserialization failure, `run_nesting` logs the diagnostic and a
bounded prefix of the input — `&json_str[..json_str.len().min(500)]` — then
returns the error wrapped in the context message.  Rust string slicing
panics when the end index is not a UTF-8 char boundary, so the input is
embedded as its byte sequence (`List Nat`, each < 256) and the slice is
partial. -/

/-- Rust `str::is_char_boundary(i)`: true at 0 and at the length, false
beyond the length, and otherwise true iff the byte at `i` is not a UTF-8
continuation byte (`0x80..0xBF`). -/
def isCharBoundary (s : List Nat) (i : Nat) : Bool :=
  if i = 0 then true
  else if i = s.length then true
  else
    match s.drop i with
    | [] => false
    | b :: _ => decide (b < 128 ∨ 192 ≤ b)

/-- Rust `&s[..i]`: `some` prefix when `i` is a char boundary, `none` when
the source panics. -/
def strSlicePrefix (s : List Nat) (i : Nat) : Option (List Nat) :=
  if isCharBoundary s i then some (s.take i) else none

/-- Result of the parse-failure path: either the whole call panics, or a
malformed-instance error (context message plus the underlying serde
diagnostic) is returned after the prefix was logged. -/
inductive ParseFailureOutcome where
  | panicked
  | errorReturned (context diagnostic : String) (loggedPrefix : List Nat)
  deriving Repr, DecidableEq

/-- The `map_err` + `context` error path of `run_nesting` (nesting.rs lines
84–91) for an input that failed to deserialize, with `e` the serde
diagnostic: logs `e`, logs the first `min(len, 500)` bytes of the input —
panicking when that index is not a char boundary — then returns the error
with context "not a valid strip packing instance (ExtSPInstance)". -/
def handleParseFailure (json_str : List Nat) (e : String) : ParseFailureOutcome :=
  match strSlicePrefix json_str (min json_str.length 500) with
  | none => ParseFailureOutcome.panicked
  | some pfx =>
      ParseFailureOutcome.errorReturned
        "not a valid strip packing instance (ExtSPInstance)" e pfx

/-- A 501-byte input that is not valid JSON: 499 `'a'` bytes followed by
the two-byte UTF-8 encoding of U+00AC (0xC2 0xAC).  Byte index 500 is the
continuation byte 0xAC, so slicing `..500` panics. -/
def multibyteStraddleInput : List Nat := List.replicate 499 97 ++ [194, 172]

/-! ## Graphic postprocessor (mod.rs lines 176–214)

`expand_svg_viewbox` matches the regex `viewBox="([^dquote]+)"` (written
here with `dquote` for the double-quote character), splits the capture on
whitespace, parses the four fields as `f64`, and replaces the first match
with the re-formatted declaration; on any failure the input is returned
unchanged.  Strings are embedded as `List Char`; `f64` values as exact
rationals.  Rust's `f64` parser also accepts non-finite spellings
("inf", "nan"), which have no finite rational meaning and are not
modelled; `char::is_whitespace` is modelled on its ASCII subset. -/

/-- The literal pattern prefix, `viewBox=` followed by a double quote. -/
def vbKey : List Char := "viewBox=\"".data

/-- Anchored regex match of `viewBox="([^"]+)"` at the head of `s`:
returns the capture (non-empty, quote-free) and the text after the closing
quote. -/
def matchViewBoxAt (s : List Char) : Option (List Char × List Char) :=
  if s.take 9 = vbKey then
    let rest := s.drop 9
    let cap := rest.takeWhile (fun c => c ≠ '"')
    if cap.isEmpty then none
    else
      match rest.dropWhile (fun c => c ≠ '"') with
      | '"' :: post => some (cap, post)
      | _ => none
  else none

/-- Leftmost regex match: splits `s` as prefix / capture / suffix at the
first position where `matchViewBoxAt` succeeds. -/
def splitAtViewBox : List Char → Option (List Char × List Char × List Char)
  | [] => none
  | c :: rest =>
    match matchViewBoxAt (c :: rest) with
    | some (cap, post) => some ([], cap, post)
    | none =>
      match splitAtViewBox rest with
      | some (pre, cap, post) => some (c :: pre, cap, post)
      | none => none

/-- ASCII subset of `char::is_whitespace`. -/
def isWsChar (c : Char) : Bool :=
  c = ' ' ∨ c = '\t' ∨ c = '\n' ∨ c = '\r'

/-- Accumulator loop of `split_whitespace`. -/
def splitWsAux : List Char → List Char → List (List Char)
  | [], acc => if acc.isEmpty then [] else [acc.reverse]
  | c :: rest, acc =>
    if isWsChar c then
      if acc.isEmpty then splitWsAux rest []
      else acc.reverse :: splitWsAux rest []
    else splitWsAux rest (c :: acc)

/-- Rust `str::split_whitespace`: maximal non-whitespace runs, no empty
tokens. -/
def splitWhitespace (s : List Char) : List (List Char) := splitWsAux s []

/-- Decimal digit test. -/
def isDigitChar (c : Char) : Bool := '0' ≤ c ∧ c ≤ '9'

/-- Value of a digit string (most significant first). -/
def digitsVal (ds : List Char) : Nat :=
  ds.foldl (fun n c => 10 * n + (c.toNat - 48)) 0

/-- Exponent digits: non-empty all-digit run. -/
def expDigits (ds : List Char) : Option Int :=
  if ds.isEmpty then none
  else if ds.all isDigitChar then some (digitsVal ds : Int)
  else none

/-- Optional exponent suffix of the `f64` grammar: empty means exponent 0;
`e`/`E` with optionally signed digits; anything else is a parse failure. -/
def parseExpPart : List Char → Option Int
  | [] => some 0
  | c :: rest =>
    if c = 'e' ∨ c = 'E' then
      match rest with
      | '+' :: ds => expDigits ds
      | '-' :: ds => (expDigits ds).map Neg.neg
      | ds => expDigits ds
    else none

/-- Mantissa of the `f64` grammar: `digits [. digits]` or `. digits`, with
at least one digit overall; returns the value and the unconsumed rest. -/
def parseMantissa (s : List Char) : Option (ℚ × List Char) :=
  let ip := s.takeWhile isDigitChar
  let rest1 := s.dropWhile isDigitChar
  match rest1 with
  | '.' :: rest2 =>
    let fp := rest2.takeWhile isDigitChar
    let rest3 := rest2.dropWhile isDigitChar
    if ip.isEmpty ∧ fp.isEmpty then none
    else some ((digitsVal ip : ℚ) + (digitsVal fp : ℚ) / (10 : ℚ) ^ fp.length, rest3)
  | _ => if ip.isEmpty then none else some ((digitsVal ip : ℚ), rest1)

/-- Unsigned finite `f64` literal: mantissa followed by optional exponent,
consuming the whole string. -/
def parseUnsignedF64 (s : List Char) : Option ℚ :=
  match parseMantissa s with
  | none => none
  | some (m, rest) =>
    match parseExpPart rest with
    | none => none
    | some e => some (m * (10 : ℚ) ^ e)

/-- Rust `str::parse::<f64>()` on finite decimal literals (idealized to
exact rationals): optional sign then unsigned literal. -/
def parseF64 (s : List Char) : Option ℚ :=
  match s with
  | '+' :: rest => parseUnsignedF64 rest
  | '-' :: rest => (parseUnsignedF64 rest).map Neg.neg
  | _ => parseUnsignedF64 s

/-- The `parts.len() == 4` check plus the four `parse::<f64>()` calls of
`expand_svg_viewbox`. -/
def parseViewBoxNums (cap : List Char) : Option (ℚ × ℚ × ℚ × ℚ) :=
  match splitWhitespace cap with
  | [a, b, c, d] =>
    match parseF64 a, parseF64 b, parseF64 c, parseF64 d with
    | some x, some y, some w, some h => some (x, y, w, h)
    | _, _, _, _ => none
  | _ => none

/-- Decimal digits of a natural number, fuel-based (fuel `n + 1` always
suffices). -/
def natToDigitsAux : Nat → Nat → List Char → List Char
  | 0, _, acc => acc
  | fuel + 1, n, acc =>
    if n < 10 then Char.ofNat (48 + n) :: acc
    else natToDigitsAux fuel (n / 10) (Char.ofNat (48 + n % 10) :: acc)

/-- Decimal rendering of a natural number. -/
def natToDigits (n : Nat) : List Char := natToDigitsAux (n + 1) n []

/-- Fractional decimal digits of `rem / d` (with `rem < d`), fuel-based;
1200 digits cover the longest terminating expansion of any finite `f64`. -/
def fracDigits : Nat → Nat → Nat → List Char
  | 0, _, _ => []
  | fuel + 1, rem, d =>
    if rem = 0 then []
    else Char.ofNat (48 + rem * 10 / d) :: fracDigits fuel (rem * 10 % d) d

/-- Decimal rendering of a non-negative rational: integer part, then a
point and the fractional digits when non-zero (terminating for every
value representing a finite `f64`, which is dyadic). -/
def renderNonnegQ (q : ℚ) : List Char :=
  let n := q.num.toNat
  let d := q.den
  if n % d = 0 then natToDigits (n / d)
  else natToDigits (n / d) ++ '.' :: fracDigits 1200 (n % d) d

/-- Rust `Display` formatting of an `f64` value (idealized: exact decimal
rendering of the rational; integral values print with no point, matching
`Display` for `f64`). -/
def renderQ (q : ℚ) : List Char :=
  if q < 0 then '-' :: renderNonnegQ (-q) else renderNonnegQ q

/-- The `format!` body (four placeholders separated by single spaces,
wrapped in the viewBox attribute) without the wrapper: the four rendered
values separated by single spaces. -/
def renderViewBoxVals (a b c d : ℚ) : List Char :=
  renderQ a ++ ' ' :: renderQ b ++ ' ' :: renderQ c ++ ' ' :: renderQ d

/-- `expand_svg_viewbox` (mod.rs lines 176–214): on a leftmost regex match
whose capture splits into four parseable numbers, replace the match with
the declaration re-formatted from `(min_x − margin, min_y − margin,
width + 2·margin, height + 2·margin)`; otherwise return the input
unchanged.  Replacing the first match is splicing between the unchanged
prefix and suffix. -/
def expand_svg_viewbox (svg : List Char) (margin : ℚ) : List Char :=
  match splitAtViewBox svg with
  | none => svg
  | some (pre, cap, post) =>
    match parseViewBoxNums cap with
    | none => svg
    | some (x, y, w, h) =>
      pre ++ vbKey ++
        renderViewBoxVals (x - margin) (y - margin)
          (w + 2 * margin) (h + 2 * margin) ++
        '"' :: post

/-- Concrete scenario C input: a viewport declaration `0 0 100 50`. -/
def scenarioSvg : List Char := "<svg viewBox=\"0 0 100 50\">ok</svg>".data

/-- Concrete scenario C expected output with margin 10. -/
def scenarioSvgExpanded : List Char :=
  "<svg viewBox=\"-10 -10 120 70\">ok</svg>".data

/-- A text with no viewport declaration. -/
def noViewBoxText : List Char := "<svg width=\"5\">x</svg>".data

end NestingEngine

namespace NestingEngine

/-! ## Theorems: terminator claims -/

/-- C3: for every terminator state and time, `is_terminated` (and `kill`)
returns true iff the stop flag is set or a deadline is set and the current
time is past it; a fresh terminator reports false, and one armed with a
1 ms deadline reports true once 10 ms have elapsed.  Time is in
milliseconds for the concrete scenario. -/
theorem is_terminated_iff_stop_or_deadline_passed :
    (∀ (t : NativeTerminator) (now : Nat),
      (t.is_terminated now = true ↔
        t.stop = true ∨ ∃ d, t.deadline = some d ∧ d < now) ∧
      t.kill now = t.is_terminated now) ∧
    (∀ now : Nat, NativeTerminator.new.is_terminated now = false) ∧
    (∀ t0 : Nat,
      (NativeTerminator.new.new_timeout t0 1).is_terminated (t0 + 10) = true) := by
  refine ⟨fun t now => ⟨?_, ?_⟩, fun now => rfl, fun t0 => ?_⟩
  · unfold NativeTerminator.is_terminated
    rcases t with ⟨stop, deadline⟩
    cases stop <;> cases deadline <;> simp [Nat.lt_iff_add_one_le]
  · unfold NativeTerminator.is_terminated NativeTerminator.kill
    rcases t with ⟨stop, deadline⟩
    cases stop <;> cases deadline <;> simp
  · unfold NativeTerminator.new_timeout NativeTerminator.new
      NativeTerminator.is_terminated
    simp

/-- C4: arming a deadline is write-once: starting from a state with no
deadline, `new_timeout d1` sets the deadline to `now1 + d1`, and a second
`new_timeout d2` is a no-op, leaving the whole state unchanged. -/
theorem new_timeout_arm_once (t : NativeTerminator) (now1 d1 now2 d2 : Nat)
    (h : t.deadline = none) :
    (t.new_timeout now1 d1).deadline = some (now1 + d1) ∧
    (t.new_timeout now1 d1).new_timeout now2 d2 = t.new_timeout now1 d1 := by
  rcases t with ⟨stop, deadline⟩
  cases h
  simp [NativeTerminator.new_timeout]

/-- Witness for C4 at a concrete fresh terminator and concrete durations. -/
theorem new_timeout_arm_once_witness :
    (NativeTerminator.new.new_timeout 5 7).deadline = some 12 ∧
    (NativeTerminator.new.new_timeout 5 7).new_timeout 9 100 =
      NativeTerminator.new.new_timeout 5 7 :=
  new_timeout_arm_once NativeTerminator.new 5 7 9 100 rfl

/-! ## Theorems: budget planner and default substitution -/

/-- C6: for every supplied limit L > 0 and ratio constants satisfying the
spec constraints (both non-negative, summing to at most 1), the planned
exploration and compression durations are non-negative and sum to at most
L, with no default-substitution event; with no limit supplied, the fixed
600-unit default is substituted into the same ratios and the substitution
is surfaced as a log-level event (`true` flag), never as an error (the
function is total and returns a budget in every case). -/
theorem planBudget_bounds (L : Nat) (rE rC : ℚ)
    (hE : 0 ≤ rE) (hC : 0 ≤ rC) (hsum : rE + rC ≤ 1) (hL : 0 < L) :
    (0 ≤ (planBudget (some L) rE rC).1.1 ∧
     0 ≤ (planBudget (some L) rE rC).1.2 ∧
     (planBudget (some L) rE rC).1.1 + (planBudget (some L) rE rC).1.2 ≤ (L : ℚ) ∧
     (planBudget (some L) rE rC).2 = false) ∧
    planBudget none rE rC = (((600 : ℚ) * rE, (600 : ℚ) * rC), true) := by
  have hLQ : (0 : ℚ) ≤ (L : ℚ) := by positivity
  refine ⟨⟨?_, ?_, ?_, rfl⟩, rfl⟩
  · exact mul_nonneg hLQ hE
  · exact mul_nonneg hLQ hC
  · calc (L : ℚ) * rE + (L : ℚ) * rC = (L : ℚ) * (rE + rC) := by ring
      _ ≤ (L : ℚ) * 1 := by
          exact mul_le_mul_of_nonneg_left hsum hLQ
      _ = (L : ℚ) := by ring

/-- Witness for C6 with ratios 4/5 and 1/5 and a 10-unit limit. -/
theorem planBudget_bounds_witness :
    (0 ≤ (planBudget (some 10) (4/5) (1/5)).1.1 ∧
     0 ≤ (planBudget (some 10) (4/5) (1/5)).1.2 ∧
     (planBudget (some 10) (4/5) (1/5)).1.1 +
       (planBudget (some 10) (4/5) (1/5)).1.2 ≤ ((10 : Nat) : ℚ) ∧
     (planBudget (some 10) (4/5) (1/5)).2 = false) ∧
    planBudget none (4/5) (1/5) = (((600 : ℚ) * (4/5), (600 : ℚ) * (1/5)), true) :=
  planBudget_bounds 10 (4/5) (1/5) (by norm_num) (by norm_num) (by norm_num)
    (by norm_num)

/-- C10: `run_nesting_engine` substitutes a 300 s limit whenever the input
has none, so the config's time limit is always present, the planner's
600-unit no-limit branch (default-substitution flag) is never taken from
this entry point, and an absent input limit yields exactly the 300 s
budget. -/
theorem toConfig_default_time_limit (input : NestingInput) (rE rC : ℚ) :
    input.toConfig.time_limit = some (input.time_limit.getD 300) ∧
    (planBudget input.toConfig.time_limit rE rC).2 = false ∧
    (input.time_limit = none →
      planBudget input.toConfig.time_limit rE rC =
        (((300 : ℚ) * rE, (300 : ℚ) * rC), true) → False) ∧
    (input.time_limit = none →
      planBudget input.toConfig.time_limit rE rC =
        (((300 : ℚ) * rE, (300 : ℚ) * rC), false)) := by
  rcases input with ⟨tl, seed, et, nw⟩
  cases tl <;>
    simp [NestingInput.toConfig, planBudget, Option.or, Option.getD]

/-- Witness for C10 at a concrete input with no time limit. -/
theorem toConfig_default_time_limit_witness :
    planBudget
        (NestingInput.toConfig
          { time_limit := none, seed := none,
            use_early_termination := none, n_workers := none }).time_limit
        (4/5) (1/5) =
      (((300 : ℚ) * (4/5), (300 : ℚ) * (1/5)), false) :=
  (toConfig_default_time_limit
    { time_limit := none, seed := none,
      use_early_termination := none, n_workers := none } (4/5) (1/5)).2.2.2 rfl

/-! ## Theorems: arming discipline per entry point (C5) -/

/-- C5 counterexample: the CLI entry point (cli.rs) performs no
deadline-arming at all — its event trace is just the optimizer invocation —
so it is false that every public entry point arms the terminator's deadline
exactly once before invoking the optimizer. -/
theorem cliMain_never_arms :
    cliMainEvents 300 none false 1 = [OrchestrationEvent.invokeOptimizer] ∧
    (cliMainEvents 300 none false 1).countP
      (fun e => OrchestrationEvent.isArm e) = 0 := by
  constructor <;> rfl

/-- C5 (amended): the `run_nesting_engine` entry point arms the terminator's
deadline exactly once, to the full time limit (the input's limit, or the
substituted 300 s default), strictly before the single optimizer
invocation; `run_nesting` itself and the CLI entry point never arm the
deadline. -/
theorem runNestingEngine_arms_once (input : NestingInput) (config : NestingConfig)
    (timeout : Nat) (seed : Option Nat) (et : Bool) (workers : Nat) :
    runNestingEngineEvents input =
      [OrchestrationEvent.armDeadline (input.time_limit.getD 300),
       OrchestrationEvent.invokeOptimizer] ∧
    (runNestingEngineEvents input).countP
      (fun e => OrchestrationEvent.isArm e) = 1 ∧
    (runNestingEvents config).countP (fun e => OrchestrationEvent.isArm e) = 0 ∧
    (cliMainEvents timeout seed et workers).countP
      (fun e => OrchestrationEvent.isArm e) = 0 := by
  refine ⟨?_, ?_, rfl, rfl⟩
  · rcases input with ⟨tl, s, e, n⟩
    cases tl <;>
      simp [runNestingEngineEvents, NestingInput.toConfig, Option.or,
        runNestingEvents, Option.getD]
  · rcases input with ⟨tl, s, e, n⟩
    cases tl <;>
      simp [runNestingEngineEvents, NestingInput.toConfig, Option.or,
        runNestingEvents, OrchestrationEvent.isArm, List.countP_cons]

/-! ## Theorems: result reducer claims -/

/-- Sum of a pointwise sum of two `ℕ`-valued maps splits. -/
lemma sum_map_add_nat {α : Type} (f g : α → ℕ) (l : List α) :
    (l.map (fun a => f a + g a)).sum = (l.map f).sum + (l.map g).sum := by
  induction l with
  | nil => simp
  | cons a t ih => simp only [List.map_cons, List.sum_cons, ih]; omega

/-- An indicator sum over a list not containing the tested value is 0. -/
lemma sum_indicator_of_not_mem (x : ℕ) (ids : List ℕ) (h : x ∉ ids) :
    (ids.map (fun id => if x = id then (1 : ℕ) else 0)).sum = 0 := by
  induction ids with
  | nil => simp
  | cons b t ih =>
    rw [List.mem_cons, not_or] at h
    simp only [List.map_cons, List.sum_cons, ih h.2]
    rw [if_neg h.1]

/-- An indicator sum over a duplicate-free list containing the tested value
is exactly 1. -/
lemma sum_indicator_of_nodup (x : ℕ) (ids : List ℕ) (hnd : ids.Nodup)
    (hmem : x ∈ ids) :
    (ids.map (fun id => if x = id then (1 : ℕ) else 0)).sum = 1 := by
  induction ids with
  | nil => cases hmem
  | cons b t ih =>
    rw [List.nodup_cons] at hnd
    simp only [List.map_cons, List.sum_cons]
    rcases List.mem_cons.mp hmem with hx | hx
    · rw [if_pos hx, sum_indicator_of_not_mem x t (hx ▸ hnd.1)]
    · have hbx : x ≠ b := fun hb => hnd.1 (hb ▸ hx)
      rw [if_neg hbx, ih hnd.2 hx]

/-- Length of a list of naturals as a sum of per-id occurrence counts over
any duplicate-free list of ids covering its elements. -/
lemma length_eq_sum_counts (L : List ℕ) :
    ∀ ids : List ℕ, ids.Nodup → (∀ x ∈ L, x ∈ ids) →
      L.length = (ids.map (fun id => L.count id)).sum := by
  induction L with
  | nil => intro ids _ _; simp
  | cons x L' ih =>
    intro ids hnd hsub
    have hx : x ∈ ids := hsub x (List.mem_cons_self x L')
    have hsub' : ∀ y ∈ L', y ∈ ids := fun y hy => hsub y (List.mem_cons_of_mem x hy)
    have hcount : ∀ id : ℕ, ((x :: L').count id) = L'.count id + (if x = id then 1 else 0) := by
      intro id
      rw [List.count_cons]
      simp [beq_iff_eq]
    have hmapeq : ids.map (fun id => (x :: L').count id) =
        ids.map (fun id => L'.count id + if x = id then (1 : ℕ) else 0) :=
      List.map_congr_left (fun id _ => hcount id)
    rw [hmapeq,
      sum_map_add_nat (fun id => L'.count id) (fun id => if x = id then (1 : ℕ) else 0) ids,
      ← ih ids hnd hsub', sum_indicator_of_nodup x ids hnd hx]
    simp

/-- Splitting a sum of saturating differences against the sum of counts. -/
lemma sum_count_add_sum_sub {α : Type} (q c : α → ℕ) (l : List α)
    (h : ∀ a ∈ l, c a ≤ q a) :
    (l.map c).sum + (l.map (fun a => q a - c a)).sum = (l.map q).sum := by
  induction l with
  | nil => simp
  | cons a t ih =>
    have h1 := h a (List.mem_cons_self a t)
    have h2 : ∀ b ∈ t, c b ≤ q b := fun b hb => h b (List.mem_cons_of_mem a hb)
    have h3 := ih h2
    simp only [List.map_cons, List.sum_cons]
    omega

/-- Projection equations of `from_solution` used by several claims. -/
lemma from_solution_projections (sol : SPSolution) (inst : SPInstance)
    (name : String) (tm : ℚ) :
    (NestingOutput.from_solution sol inst name tm).total_items_placed =
      sol.placed_items.length ∧
    (NestingOutput.from_solution sol inst name tm).unplaced_item_ids =
      inst.items.flatMap (fun iq =>
        List.replicate
          (iq.2 - (sol.placed_items.map (fun p => p.item_id)).count iq.1.id)
          iq.1.id) ∧
    (NestingOutput.from_solution sol inst name tm).utilization =
      (if sol.strip_width * inst.fixed_height > 0 then
        totalItemArea inst / (sol.strip_width * inst.fixed_height) else 0) := by
  refine ⟨?_, ?_, ?_⟩ <;>
    simp [NestingOutput.from_solution, totalItemArea, List.map_map,
      Function.comp_def]

/-- C1 counterexample: on an instance requesting one copy of item 0 and a
raw solution placing it twice, the code reports status "complete" even
though the placed count (2) differs from items_requested (1) — refuting
"complete iff placed count equals items_requested". -/
theorem status_overplaced_is_complete :
    (NestingOutput.from_solution overplacedSol oneItemInst "over" 0).status =
      some "complete" ∧
    (NestingOutput.from_solution overplacedSol oneItemInst "over" 0).total_items_placed = 2 ∧
    (NestingOutput.from_solution overplacedSol oneItemInst "over" 0).items_requested =
      some 1 ∧
    (2 : ℕ) ≠ 1 := by
  refine ⟨rfl, rfl, rfl, by decide⟩

/-- C1 (amended): the status is "partial" iff the placed count is strictly
below items_requested, and "complete" iff the placed count is at least
items_requested (so equality is only the "iff" criterion under the
optimizer invariant that placed counts never exceed requested counts). -/
theorem status_complete_iff_requested_le_placed (sol : SPSolution)
    (inst : SPInstance) (name : String) (tm : ℚ) :
    ((NestingOutput.from_solution sol inst name tm).status = some "complete" ↔
      inst.total_item_qty ≤ sol.placed_items.length) ∧
    ((NestingOutput.from_solution sol inst name tm).status = some "partial" ↔
      sol.placed_items.length < inst.total_item_qty) := by
  have hne : ("partial" : String) ≠ "complete" := by decide
  unfold NestingOutput.from_solution
  by_cases h : sol.placed_items.length < inst.total_item_qty <;>
    simp [List.length_map, h, hne, hne.symm] <;> omega

/-- C2 counterexample: with one copy of item 0 requested and two placed,
total_items_placed + |unplaced_item_ids| = 2 + 0 = 2 while
items_requested = 1, so the conservation identity fails without a
hypothesis on the raw solution. -/
theorem conservation_fails_on_overplacement :
    (NestingOutput.from_solution overplacedSol oneItemInst "over" 0).total_items_placed +
      (NestingOutput.from_solution overplacedSol oneItemInst "over" 0).unplaced_item_ids.length = 2 ∧
    (NestingOutput.from_solution overplacedSol oneItemInst "over" 0).items_requested =
      some 1 ∧
    oneItemInst.total_item_qty = 1 ∧ (2 : ℕ) ≠ 1 := by
  refine ⟨rfl, rfl, rfl, by decide⟩

/-- C2 (amended): whenever the instance's item ids are duplicate-free,
every placed record's id occurs among the instance ids, and the placed
count of each id does not exceed its requested quantity (the optimizer
invariant of §3/§7), then total_items_placed plus the size of the
unplaced_item_ids multiset equals items_requested; unplaced_item_ids holds
max(0, requested − placed) copies of each id by construction. -/
theorem placed_plus_unplaced_eq_requested (sol : SPSolution) (inst : SPInstance)
    (name : String) (tm : ℚ)
    (hnodup : (inst.items.map (fun iq => iq.1.id)).Nodup)
    (hsub : ∀ p ∈ sol.placed_items,
      p.item_id ∈ inst.items.map (fun iq => iq.1.id))
    (hle : ∀ iq ∈ inst.items,
      (sol.placed_items.map (fun p => p.item_id)).count iq.1.id ≤ iq.2) :
    (NestingOutput.from_solution sol inst name tm).total_items_placed +
      (NestingOutput.from_solution sol inst name tm).unplaced_item_ids.length =
      inst.total_item_qty := by
  obtain ⟨htot, hunp, -⟩ := from_solution_projections sol inst name tm
  rw [htot, hunp]
  have hsub' : ∀ x ∈ sol.placed_items.map (fun p => p.item_id),
      x ∈ inst.items.map (fun iq => iq.1.id) := by
    intro x hx
    obtain ⟨p, hp, rfl⟩ := List.mem_map.mp hx
    exact hsub p hp
  have hlen := length_eq_sum_counts (sol.placed_items.map (fun p => p.item_id))
    (inst.items.map (fun iq => iq.1.id)) hnodup hsub'
  rw [List.map_map] at hlen
  simp only [Function.comp_def, List.length_map] at hlen
  have hkey := sum_count_add_sum_sub (fun iq => iq.2)
    (fun iq => (sol.placed_items.map (fun p => p.item_id)).count iq.1.id)
    inst.items hle
  simp only [List.length_flatMap, List.length_replicate, Function.comp_def]
  unfold SPInstance.total_item_qty
  rw [hlen]
  exact hkey

/-- Witness for C2 on scenario B: 4 copies of item 0 requested, 3 placed,
3 + 1 = 4. -/
theorem placed_plus_unplaced_eq_requested_witness :
    (NestingOutput.from_solution scenarioPartialSol scenarioInst "b" 0).total_items_placed +
      (NestingOutput.from_solution scenarioPartialSol scenarioInst "b" 0).unplaced_item_ids.length =
      scenarioInst.total_item_qty ∧
    scenarioInst.total_item_qty = 4 :=
  ⟨placed_plus_unplaced_eq_requested scenarioPartialSol scenarioInst "b" 0
      (by decide) (by decide) (by decide), rfl⟩

/-- C7 counterexample: instance of total requested area 10 against a strip
of area 1 · 1 = 1 > 0 yields utilization 10 ∉ [0,1], because the
numerator is the requested area, not the placed area. -/
theorem utilization_can_exceed_one :
    (NestingOutput.from_solution narrowSol bigItemInst "n" 0).utilization = 10 ∧
    (0 : ℚ) < narrowSol.strip_width * bigItemInst.fixed_height ∧
    ¬ (NestingOutput.from_solution narrowSol bigItemInst "n" 0).utilization ≤ 1 := by
  obtain ⟨-, -, hutil⟩ := from_solution_projections narrowSol bigItemInst "n" 0
  have h1 : narrowSol.strip_width * bigItemInst.fixed_height = 1 := by
    norm_num [narrowSol, bigItemInst]
  have h2 : totalItemArea bigItemInst = 10 := by
    norm_num [totalItemArea, bigItemInst]
  have h3 : (NestingOutput.from_solution narrowSol bigItemInst "n" 0).utilization = 10 := by
    rw [hutil, h1, h2]
    norm_num
  refine ⟨h3, by rw [h1]; norm_num, by rw [h3]; norm_num⟩

/-- C7 (amended): the reducer's utilization is computed totally (no
division error): it is exactly 0 whenever strip_area is not positive (in
particular when it is 0), and when strip_area > 0 it is non-negative
(given non-negative item areas) and bounded by 1 whenever the total
requested item area is at most the strip area; it exceeds 1 otherwise. -/
theorem utilization_bounds (sol : SPSolution) (inst : SPInstance)
    (name : String) (tm : ℚ)
    (harea : ∀ iq ∈ inst.items, 0 ≤ iq.1.area) :
    (¬ 0 < sol.strip_width * inst.fixed_height →
      (NestingOutput.from_solution sol inst name tm).utilization = 0) ∧
    (0 < sol.strip_width * inst.fixed_height →
      0 ≤ (NestingOutput.from_solution sol inst name tm).utilization ∧
      (totalItemArea inst ≤ sol.strip_width * inst.fixed_height →
        (NestingOutput.from_solution sol inst name tm).utilization ≤ 1)) := by
  obtain ⟨-, -, hutil⟩ := from_solution_projections sol inst name tm
  have harea' : 0 ≤ totalItemArea inst := by
    apply List.sum_nonneg
    intro x hx
    obtain ⟨iq, hiq, rfl⟩ := List.mem_map.mp hx
    exact mul_nonneg (harea iq hiq) (Nat.cast_nonneg _)
  constructor
  · intro h
    rw [hutil, if_neg h]
  · intro h
    rw [hutil, if_pos h]
    exact ⟨div_nonneg harea' h.le, fun hle => (div_le_one h).mpr hle⟩

/-- Witness for C7 on scenario A's geometry: strip 10 × 5, total requested
area 40, utilization within [0,1]. -/
theorem utilization_bounds_witness :
    0 ≤ (NestingOutput.from_solution scenarioPartialSol scenarioInst "a" 0).utilization ∧
    (NestingOutput.from_solution scenarioPartialSol scenarioInst "a" 0).utilization ≤ 1 := by
  have h := (utilization_bounds scenarioPartialSol scenarioInst "a" 0
    (by norm_num [scenarioInst])).2
    (by norm_num [scenarioPartialSol, scenarioInst])
  exact ⟨h.1, h.2 (by norm_num [totalItemArea, scenarioPartialSol, scenarioInst])⟩

/-! ## Theorems: parse-failure handling (C9) -/

set_option maxRecDepth 8000 in
/-- C9: the parse-failure path panics instead of returning the
malformed-input error when the 500-byte diagnostic prefix boundary falls
inside a multi-byte UTF-8 character (499 ASCII bytes followed by a
two-byte character), while on short inputs it returns the error carrying
the context message, the serde diagnostic, and the logged prefix. -/
theorem malformed_input_panics_on_multibyte_prefix :
    handleParseFailure multibyteStraddleInput "expected value at line 1 column 1" =
      ParseFailureOutcome.panicked ∧
    handleParseFailure [110, 111] "expected value at line 1 column 1" =
      ParseFailureOutcome.errorReturned
        "not a valid strip packing instance (ExtSPInstance)"
        "expected value at line 1 column 1" [110, 111] := by
  constructor <;> rfl

/-! ## Theorems: graphic postprocessor (C8) -/

/-- A successful anchored match decomposes the text as the pattern wrapper
around the capture. -/
lemma matchViewBoxAt_sound (s cap post : List Char)
    (h : matchViewBoxAt s = some (cap, post)) :
    s = vbKey ++ cap ++ '"' :: post := by
  unfold matchViewBoxAt at h
  split at h
  case isTrue h9 =>
    dsimp only at h
    split at h
    case isTrue => exact Option.noConfusion h
    case isFalse hne =>
      split at h
      case h_1 post' heq =>
        injection h with h'
        injection h' with hc hp
        subst hc
        subst hp
        have hd : List.drop 9 s =
            (List.drop 9 s).takeWhile (fun c => c ≠ '"') ++ '"' :: post' := by
          conv_lhs =>
            rw [← List.takeWhile_append_dropWhile (p := fun c => c ≠ '"')
              (l := s.drop 9)]
          rw [heq]
        obtain ⟨t, ht⟩ : ∃ t, (s.drop 9).takeWhile (fun c => c ≠ '"') = t := ⟨_, rfl⟩
        rw [ht] at hd ⊢
        conv_lhs => rw [← List.take_append_drop 9 s]
        rw [h9, hd]
        simp [List.append_assoc]
      case h_2 => exact Option.noConfusion h
  case isFalse => exact Option.noConfusion h

/-- The leftmost-match scanner really decomposes its input: every
successful split is a byte-preserving decomposition. -/
lemma splitAtViewBox_sound :
    ∀ s pre cap post : List Char,
      splitAtViewBox s = some (pre, cap, post) →
        s = pre ++ vbKey ++ cap ++ '"' :: post := by
  intro s
  induction s with
  | nil => intro pre cap post h; exact Option.noConfusion h
  | cons c rest ih =>
    intro pre cap post h
    unfold splitAtViewBox at h
    split at h
    case h_1 cap' post' hm =>
      injection h with h'
      injection h' with hpre h''
      injection h'' with hcap hpost
      subst hpre; subst hcap; subst hpost
      simpa using matchViewBoxAt_sound _ _ _ hm
    case h_2 hm =>
      split at h
      case h_1 p c2 p2 hs =>
        injection h with h'
        injection h' with hpre h''
        injection h'' with hcap hpost
        subst hpre; subst hcap; subst hpost
        have := ih p c2 p2 hs
        simp [this]
      case h_2 => exact Option.noConfusion h

/-- Parsing the concrete scenario capture `0 0 100 50` yields the four
values (kept in `Nat`-cast form for the rendering lemmas). -/
lemma parseViewBoxNums_scenario :
    parseViewBoxNums ['0', ' ', '0', ' ', '1', '0', '0', ' ', '5', '0'] =
      some (((0 : ℕ) : ℚ), ((0 : ℕ) : ℚ), ((100 : ℕ) : ℚ), ((50 : ℕ) : ℚ)) := by
  have hsw : splitWhitespace ['0', ' ', '0', ' ', '1', '0', '0', ' ', '5', '0'] =
      [['0'], ['0'], ['1', '0', '0'], ['5', '0']] := by decide
  have h0 : parseF64 ['0'] = some (((0 : ℕ) : ℚ) * (10 : ℚ) ^ (0 : ℤ)) := rfl
  have h100 : parseF64 ['1', '0', '0'] =
      some (((100 : ℕ) : ℚ) * (10 : ℚ) ^ (0 : ℤ)) := rfl
  have h50 : parseF64 ['5', '0'] = some (((50 : ℕ) : ℚ) * (10 : ℚ) ^ (0 : ℤ)) := rfl
  rw [zpow_zero, mul_one] at h0 h100 h50
  simp only [parseViewBoxNums, hsw, h0, h100, h50]

/-- Rendering a natural-number-valued rational prints its digits with no
decimal point. -/
lemma renderNonnegQ_natCast (n : ℕ) : renderNonnegQ (n : ℚ) = natToDigits n := by
  simp [renderNonnegQ, Rat.num_natCast, Rat.den_natCast, Nat.mod_one, Nat.div_one]

/-- Display of a non-negative integral value. -/
lemma renderQ_natCast (n : ℕ) : renderQ (n : ℚ) = natToDigits n := by
  rw [renderQ, if_neg (not_lt.mpr (by exact_mod_cast Nat.zero_le n)),
    renderNonnegQ_natCast]

/-- Display of a negative integral value: minus sign then digits. -/
lemma renderQ_neg_natCast (n : ℕ) (h : 0 < n) :
    renderQ (-(n : ℚ)) = '-' :: natToDigits n := by
  have hc : (0 : ℚ) < (n : ℚ) := by exact_mod_cast h
  rw [renderQ, if_pos (neg_lt_zero.mpr hc), neg_neg, renderNonnegQ_natCast]

/-- C8: whenever the viewport declaration is found and its four fields
parse, `expand_svg_viewbox` replaces exactly the declaration — the input
decomposes as prefix/declaration/suffix and the output keeps the prefix
and suffix byte-for-byte, with the four values re-formatted as
(min_x − margin, min_y − margin, width + 2·margin, height + 2·margin);
when the declaration is absent or its capture is malformed the input is
returned unchanged; concretely, `0 0 100 50` with margin 10 becomes
`-10 -10 120 70` and a text without a declaration is returned
byte-for-byte. -/
theorem expand_viewbox_replaces_or_preserves :
    (∀ (svg : List Char) (margin : ℚ) (pre cap post : List Char),
      splitAtViewBox svg = some (pre, cap, post) →
        svg = pre ++ vbKey ++ cap ++ '"' :: post ∧
        (∀ x y w h : ℚ, parseViewBoxNums cap = some (x, y, w, h) →
          expand_svg_viewbox svg margin =
            pre ++ vbKey ++
              renderViewBoxVals (x - margin) (y - margin)
                (w + 2 * margin) (h + 2 * margin) ++
              '"' :: post) ∧
        (parseViewBoxNums cap = none → expand_svg_viewbox svg margin = svg)) ∧
    (∀ (svg : List Char) (margin : ℚ),
      splitAtViewBox svg = none → expand_svg_viewbox svg margin = svg) ∧
    expand_svg_viewbox scenarioSvg 10 = scenarioSvgExpanded ∧
    expand_svg_viewbox noViewBoxText 10 = noViewBoxText := by
  refine ⟨?_, ?_, ?_, ?_⟩
  · intro svg margin pre cap post hsplit
    refine ⟨splitAtViewBox_sound _ _ _ _ hsplit, ?_, ?_⟩
    · intro x y w h hparse
      simp only [expand_svg_viewbox, hsplit, hparse]
    · intro hparse
      simp only [expand_svg_viewbox, hsplit, hparse]
  · intro svg margin hsplit
    simp only [expand_svg_viewbox, hsplit]
  · have hsplit : splitAtViewBox scenarioSvg =
        some ("<svg ".data, "0 0 100 50".data, ">ok</svg>".data) := by decide
    have e1 : ((0 : ℕ) : ℚ) - 10 = -((10 : ℕ) : ℚ) := by push_cast; ring
    have e2 : ((100 : ℕ) : ℚ) + 2 * 10 = ((120 : ℕ) : ℚ) := by push_cast; norm_num
    have e3 : ((50 : ℕ) : ℚ) + 2 * 10 = ((70 : ℕ) : ℚ) := by push_cast; norm_num
    simp only [expand_svg_viewbox, hsplit, parseViewBoxNums_scenario, e1, e2, e3,
      renderViewBoxVals, renderQ_neg_natCast 10 (by norm_num), renderQ_natCast]
    decide
  · have hsplit : splitAtViewBox noViewBoxText = none := by decide
    simp only [expand_svg_viewbox, hsplit]

/-- Witness for C8: the no-declaration branch at a concrete input. -/
theorem expand_viewbox_replaces_or_preserves_witness :
    expand_svg_viewbox ("hello".data) 10 = "hello".data :=
  expand_viewbox_replaces_or_preserves.2.1 ("hello".data) 10 (by decide)

end NestingEngine
